import Mathlib

/-!
Shallow embedding of the malloc-debug configuration parser from
src/libc/malloc_debug/Config.cpp, together with proofs of the
specification's claims about it.

Modelling conventions:
* `size_t` values are `Nat` (LP64: 64 bits, `SIZE_MAX = 2^64 - 1`);
  `long` values produced by `strtol` are `Int` clamped to
  `[LONG_MIN, LONG_MAX] = [-2^63, 2^63 - 1]` with an ERANGE flag.
* C strings are `List Char`; the end of the list plays the role of the
  terminating NUL byte.
* The raw output pointers of `Feature` (`size_t* value`, `bool* config`)
  become small enumerations of the fields of `Config` they may point to.
* Error logging becomes an explicit `ConfigError` value describing the
  first error reported; the C code only returns `bool`, so theorems about
  overall success/failure use the `Bool` component.
-/

set_option maxRecDepth 4000

/-- C `isspace` (ASCII / "C" locale), as used by `PropertyParser::Get`. -/
def isspaceChar (c : Char) : Bool :=
  c = ' ' || c = '\t' || c = '\n' || c = Char.ofNat 11 || c = Char.ofNat 12 || c = '\r'

/-- C `isdigit`. -/
def isdigitChar (c : Char) : Bool :=
  '0' ≤ c && c ≤ '9'

/-- Value of `LONG_MAX` on LP64. -/
def LONG_MAX : Int := 2 ^ 63 - 1

/-- Value of `LONG_MIN` on LP64. -/
def LONG_MIN : Int := -(2 ^ 63)

/-- Value of `SIZE_MAX` on LP64. -/
def SIZE_MAX : Nat := 2 ^ 64 - 1

/-- Value of a non-empty decimal digit string, most significant digit first. -/
def digitsToNat (l : List Char) : Nat :=
  l.foldl (fun acc c => 10 * acc + (c.toNat - '0'.toNat)) 0

/-- Result of the `strtol(cur_, &end, 10)` call in `PropertyParser::Get`:
the returned value, the rest of the string after `end`, whether `errno`
was set to `ERANGE`, and whether any conversion was performed
(`converted = false` corresponds to `end == nptr`). -/
structure StrtolResult where
  value : Int
  rest : List Char
  erange : Bool
  converted : Bool
deriving DecidableEq, Repr

/-- C `strtol` with base 10: skip whitespace, optional single sign,
then decimal digits; clamp to `[LONG_MIN, LONG_MAX]` setting ERANGE on
overflow; if no digits follow, no conversion is performed and `end`
is reset to the start of the input. -/
def strtol10 (l : List Char) : StrtolResult :=
  let l1 := l.dropWhile isspaceChar
  let sgn : Bool × List Char :=
    match l1 with
    | c :: r => if c = '-' then (true, r) else if c = '+' then (false, r) else (false, l1)
    | [] => (false, l1)
  let signNeg := sgn.1
  let l2 := sgn.2
  let digs := l2.takeWhile isdigitChar
  let rest := l2.dropWhile isdigitChar
  if digs = [] then ⟨0, l, false, false⟩
  else
    let m : Int := (if signNeg then -1 else 1) * (digitsToNat digs : Int)
    if LONG_MAX < m then ⟨LONG_MAX, rest, true, true⟩
    else if m < LONG_MIN then ⟨LONG_MIN, rest, true, true⟩
    else ⟨m, rest, false, true⟩

/-- The kinds of errors `Config.cpp` reports through `error_log` before
returning failure, one constructor per `error_log` call site that is
followed by `return false` / `valid = false`. -/
inductive ConfigError
  /-- Case `errno != 0` after `strtol` (out-of-range value) in `PropertyParser::Get`. -/
  | rangeErrno (opt : String)
  /-- Case `cur_ == end`: no number could be parsed in `PropertyParser::Get`. -/
  | noDigits (opt : String)
  /-- non-space character after the number in `PropertyParser::Get`. -/
  | trailingGarbage (opt : String)
  /-- Case `read_value < 0` in `PropertyParser::Get`. -/
  | negativeValue (opt : String) (v : Int)
  /-- Case `value < feature.min_value` in `SetFeature`. -/
  | belowMin (opt : String) (minv : Nat) (v : Nat)
  /-- Case `value > feature.max_value` in `SetFeature`. -/
  | aboveMax (opt : String) (maxv : Nat) (v : Nat)
  /-- value supplied to an option without a value slot, in `SetFeature`. -/
  | unexpectedValue (opt : String)
  /-- Case `unknown option` in `Config::SetFromProperties`. -/
  | unknownOption (opt : String)
deriving DecidableEq, Repr

/-- Result of one `PropertyParser::Get` call: terminal `done`, a parsed
token (`value = none` iff `value_set` was left false), or a parse error
(`Get` returned `false` without setting `done_`). -/
inductive GetResult
  | done
  | tok (name : String) (value : Option Nat) (rest : List Char)
  | err (e : ConfigError)
deriving DecidableEq, Repr

/-- A character ends the option name scan in `PropertyParser::Get` when it
is a space, `=` or NUL; `notNameEnd` is the continuation condition. -/
def notNameEnd (c : Char) : Bool :=
  !isspaceChar c && c ≠ '='

/-- The `*cur_ == '='` branch of `PropertyParser::Get`: parse the value with
`strtol`, then check `errno`, `cur_ == end`, trailing garbage, negativity. -/
def getValue (name : String) (r3 : List Char) : GetResult :=
  let s := strtol10 r3
  if s.erange then .err (.rangeErrno name)
  else if !s.converted then .err (.noDigits name)
  else if (match s.rest with | c :: _ => !isspaceChar c | [] => false) then
    .err (.trailingGarbage name)
  else if s.value < 0 then .err (.negativeValue name s.value)
  else .tok name (some s.value.toNat) s.rest

/-- Function `PropertyParser::Get`: skip whitespace; at NUL become done; scan the
name; skip whitespace; on `=` parse a value, otherwise return the name
with `value_set = false`. -/
def PropertyParser.Get (l : List Char) : GetResult :=
  let l1 := l.dropWhile isspaceChar
  if l1 = [] then .done
  else
    let name := String.mk (l1.takeWhile notNameEnd)
    let r1 := l1.dropWhile notNameEnd
    let r2 := r1.dropWhile isspaceChar
    match r2 with
    | '=' :: r3 => getValue name r3
    | _ => .tok name none r2

/-- The output configuration: the fields of `Config` (from Config.h) that
`Config::SetFromProperties` writes. `options` is the `uint64_t` bitmask. -/
@[ext]
structure Config where
  options : Nat
  front_guard_bytes : Nat
  rear_guard_bytes : Nat
  backtrace_frames : Nat
  fill_on_alloc_bytes : Nat
  fill_on_free_bytes : Nat
  expand_alloc_bytes : Nat
  free_track_allocations : Nat
  free_track_backtrace_num_frames : Nat
  fill_alloc_value : Nat
  fill_free_value : Nat
  front_guard_value : Nat
  rear_guard_value : Nat
  backtrace_signal : Nat
  backtrace_enabled : Bool
  backtrace_enable_on_signal : Bool
deriving DecidableEq, Repr

/-- The zero-initialized `Config` object (static storage duration). -/
def Config.init : Config :=
  ⟨0, 0, 0, 0, 0, 0, 0, 0, 0, 0, 0, 0, 0, 0, false, false⟩

/-- Modelled from the spec: the bit-flag identifiers from Config.h (which is
not under src/); the spec only requires them to be distinct flags ORed into
the bitmask, so they are modelled as distinct single bits. -/
def FRONT_GUARD : Nat := 1
/-- Modelled from the spec: see `FRONT_GUARD`. -/
def REAR_GUARD : Nat := 2
/-- Modelled from the spec: see `FRONT_GUARD`. -/
def BACKTRACE : Nat := 4
/-- Modelled from the spec: see `FRONT_GUARD`. -/
def TRACK_ALLOCS : Nat := 8
/-- Modelled from the spec: see `FRONT_GUARD`. -/
def FILL_ON_ALLOC : Nat := 16
/-- Modelled from the spec: see `FRONT_GUARD`. -/
def FILL_ON_FREE : Nat := 32
/-- Modelled from the spec: see `FRONT_GUARD`. -/
def EXPAND_ALLOC : Nat := 64
/-- Modelled from the spec: see `FRONT_GUARD`. -/
def FREE_TRACK : Nat := 128
/-- Modelled from the spec: see `FRONT_GUARD`. -/
def LEAK_TRACK : Nat := 256

/-- Modelled from the spec: the allocator's minimum alignment
(`MINIMUM_ALIGNMENT_BYTES`, defined in a header not under src/); a
power-of-two byte count, 16 on the targeted platform. -/
def MINIMUM_ALIGNMENT_BYTES : Nat := 16

/-- Modelled from the spec: the first POSIX real-time signal number; only
used as the base of the default `backtrace_signal`. -/
def SIGRTMIN : Nat := 32

/-- Macro `BIONIC_ALIGN(value, alignment)` from private/bionic_macros.h:
`((value) + (alignment) - 1) & ~((alignment) - 1)` in `size_t` arithmetic,
where `~(alignment - 1)` as a 64-bit word is `2^64 - alignment`. -/
def BIONIC_ALIGN (v a : Nat) : Nat :=
  ((v + a - 1) % 2 ^ 64) &&& (2 ^ 64 - a)

/-- The `size_t` field of `Config` a `Feature` row's `size_t* value`
pointer can point to. -/
inductive ValueSlot
  | frontGuardBytes
  | rearGuardBytes
  | backtraceFrames
  | fillOnAllocBytes
  | fillOnFreeBytes
  | expandAllocBytes
  | freeTrackAllocations
  | freeTrackNumFrames
deriving DecidableEq, Repr

/-- The `bool` field of `Config` a `Feature` row's `bool* config`
pointer can point to. -/
inductive BoolSlot
  | backtraceEnabled
  | backtraceEnableOnSignal
deriving DecidableEq, Repr

/-- Write through a `size_t*` output slot. -/
def setValueSlot (s : ValueSlot) (v : Nat) (c : Config) : Config :=
  match s with
  | .frontGuardBytes => { c with front_guard_bytes := v }
  | .rearGuardBytes => { c with rear_guard_bytes := v }
  | .backtraceFrames => { c with backtrace_frames := v }
  | .fillOnAllocBytes => { c with fill_on_alloc_bytes := v }
  | .fillOnFreeBytes => { c with fill_on_free_bytes := v }
  | .expandAllocBytes => { c with expand_alloc_bytes := v }
  | .freeTrackAllocations => { c with free_track_allocations := v }
  | .freeTrackNumFrames => { c with free_track_backtrace_num_frames := v }

/-- Read a `size_t` output slot. -/
def getValueSlot (s : ValueSlot) (c : Config) : Nat :=
  match s with
  | .frontGuardBytes => c.front_guard_bytes
  | .rearGuardBytes => c.rear_guard_bytes
  | .backtraceFrames => c.backtrace_frames
  | .fillOnAllocBytes => c.fill_on_alloc_bytes
  | .fillOnFreeBytes => c.fill_on_free_bytes
  | .expandAllocBytes => c.expand_alloc_bytes
  | .freeTrackAllocations => c.free_track_allocations
  | .freeTrackNumFrames => c.free_track_backtrace_num_frames

/-- Write through a `bool*` output slot (always writes `true`). -/
def setBoolSlot (s : BoolSlot) (c : Config) : Config :=
  match s with
  | .backtraceEnabled => { c with backtrace_enabled := true }
  | .backtraceEnableOnSignal => { c with backtrace_enable_on_signal := true }

/-- One row of the feature table (`struct Feature` in Config.cpp). -/
structure Feature where
  name : String
  default_value : Nat
  min_value : Nat
  max_value : Nat
  option : Nat
  value : Option ValueSlot
  config : Option BoolSlot
  combo_option : Bool
deriving DecidableEq, Repr

/-- The `features[]` table of `Config::SetFromProperties`, in source order. -/
def features : List Feature := [
  ⟨"guard", 32, 1, 16384, 0, none, none, true⟩,
  ⟨"front_guard", 32, 1, 16384, FRONT_GUARD, some .frontGuardBytes, none, true⟩,
  ⟨"rear_guard", 32, 1, 16384, REAR_GUARD, some .rearGuardBytes, none, true⟩,
  ⟨"backtrace", 16, 1, 256, BACKTRACE ||| TRACK_ALLOCS, some .backtraceFrames,
    some .backtraceEnabled, false⟩,
  ⟨"backtrace_enable_on_signal", 16, 1, 256, BACKTRACE ||| TRACK_ALLOCS,
    some .backtraceFrames, some .backtraceEnableOnSignal, false⟩,
  ⟨"fill", SIZE_MAX, 1, SIZE_MAX, 0, none, none, true⟩,
  ⟨"fill_on_alloc", SIZE_MAX, 1, SIZE_MAX, FILL_ON_ALLOC, some .fillOnAllocBytes, none, true⟩,
  ⟨"fill_on_free", SIZE_MAX, 1, SIZE_MAX, FILL_ON_FREE, some .fillOnFreeBytes, none, true⟩,
  ⟨"expand_alloc", 16, 1, 16384, EXPAND_ALLOC, some .expandAllocBytes, none, false⟩,
  ⟨"free_track", 100, 1, 16384, FREE_TRACK ||| FILL_ON_FREE, some .freeTrackAllocations,
    none, false⟩,
  ⟨"free_track_backtrace_num_frames", 16, 0, 256, 0, some .freeTrackNumFrames, none, false⟩,
  ⟨"leak_track", 0, 0, 0, LEAK_TRACK ||| TRACK_ALLOCS, none, none, false⟩]

/-- Function `SetFeature` from Config.cpp. It first writes `true` through the
`config` pointer, then validates/writes the value. On failure the partial
write through `config` persists, which is why the partially-updated
configuration is returned alongside the error. -/
def SetFeature (name : String) (feature : Feature) (value : Nat) (value_set : Bool)
    (c : Config) : Config × Option ConfigError :=
  let c1 := match feature.config with
    | some b => setBoolSlot b c
    | none => c
  match feature.value with
  | some slot =>
    if value_set then
      if value < feature.min_value then (c1, some (.belowMin name feature.min_value value))
      else if feature.max_value < value then (c1, some (.aboveMax name feature.max_value value))
      else (setValueSlot slot value c1, none)
    else (setValueSlot slot feature.default_value c1, none)
  | none =>
    if value_set then (c1, some (.unexpectedValue name)) else (c1, none)

/-- The inner combo loop of `Config::SetFromProperties` (lines 318-328):
starting just after a combo marker, apply the same `(value, value_set)`
to every following entry while `combo_option` holds, ORing each entry's
bit-flag after a successful application, stopping at the first failure. -/
def comboRun (fs : List Feature) (name : String) (value : Nat) (value_set : Bool)
    (c : Config) : Config × Option ConfigError :=
  match fs with
  | [] => (c, none)
  | f :: rest =>
    if f.combo_option then
      match SetFeature name f value value_set c with
      | (c1, none) => comboRun rest name value value_set { c1 with options := c1.options ||| f.option }
      | (c1, some e) => (c1, some e)
    else (c, none)

/-- The linear scan over `features[]` for one parsed token (lines 315-339):
`none` means no name matched; `some` carries the updated configuration and
the error, if any, from applying the matched entry (or combo run). -/
def scanFeatures (fs : List Feature) (name : String) (value : Nat) (value_set : Bool)
    (c : Config) : Option (Config × Option ConfigError) :=
  match fs with
  | [] => none
  | f :: rest =>
    if name = f.name then
      if f.option = 0 && f.combo_option then
        some (comboRun rest name value value_set c)
      else
        match SetFeature name f value value_set c with
        | (c1, none) => some ({ c1 with options := c1.options ||| f.option }, none)
        | (c1, some e) => some (c1, some e)
    else scanFeatures rest name value value_set c

/-- One iteration of the body of the while loop in
`Config::SetFromProperties` for an already-parsed token, threading the
sticky `found` flag (declared once, before the loop). The returned
`Option ConfigError` is `some` exactly when the iteration sets
`valid = false`. -/
def stepToken (c : Config) (found : Bool) (name : String) (value : Option Nat) :
    Config × Bool × Option ConfigError :=
  match scanFeatures features name (value.getD 0) value.isSome c with
  | none =>
    if found then (c, found, none)
    else (c, found, some (.unknownOption name))
  | some (c1, none) => (c1, true, none)
  | some (c1, some e) => (c1, found, some e)

/-- The parse loop of `Config::SetFromProperties` (lines 311-347),
structured on fuel (one unit per parsed token; each parsed token consumes
at least one character, so `length + 1` units suffice). Returns the final
configuration, the value of `valid && parser.Done()`, and the first
reported error, if any. -/
def loopGo (n : Nat) (c : Config) (found : Bool) (l : List Char) :
    Config × Bool × Option ConfigError :=
  match n with
  | 0 => (c, false, none)
  | n + 1 =>
    match PropertyParser.Get l with
    | .done => (c, true, none)
    | .err e => (c, false, some e)
    | .tok name v rest =>
      match stepToken c found name v with
      | (c1, found1, none) => loopGo n c1 found1 rest
      | (c1, _, some e) => (c1, false, some e)

/-- The two normalization passes at the end of `Config::SetFromProperties`
(lines 349-361), applied only on success. The first `if` writes only
`front_guard_bytes` and the second reads only `options` and
`fill_on_free_bytes`, so the two conditions may both be read off the
incoming configuration. -/
def normalizePost (c : Config) : Config :=
  { c with
    front_guard_bytes :=
      if c.options &&& FRONT_GUARD ≠ 0 then
        BIONIC_ALIGN c.front_guard_bytes MINIMUM_ALIGNMENT_BYTES
      else c.front_guard_bytes,
    fill_on_free_bytes :=
      if c.options &&& FILL_ON_FREE ≠ 0 ∧ c.fill_on_free_bytes = 0 then SIZE_MAX
      else c.fill_on_free_bytes }

/-- Function `Config::SetFromProperties` for a present property string: initialize
the default-valued fields, run the parse loop, and on success apply the
normalization passes. (The `__system_property_get` failure path returns
`false` without touching the configuration and is outside this model:
its input, the property store, is an external collaborator.) -/
def Config.SetFromProperties (c : Config) (property_str : String) :
    Config × Bool × Option ConfigError :=
  let c0 : Config := { c with
    fill_alloc_value := 0xeb,
    fill_free_value := 0xef,
    front_guard_value := 0xaa,
    rear_guard_value := 0xbb,
    backtrace_signal := SIGRTMIN + 10,
    free_track_backtrace_num_frames := 16 }
  let l := property_str.data
  let r := loopGo (l.length + 1) c0 false l
  if r.2.1 then (normalizePost r.1, true, none)
  else (r.1, false, r.2.2)


/-!
### Write summaries

`Config::SetFromProperties` only ever updates the configuration through
absolute field assignments (`*feature.value = ...`, `*feature.config =
true`, the initial defaults) and bitmask ORs (`options |= ...`), and which
updates run is determined by the property string alone, never by the
current configuration.  A `Summary` is the normal form of such an update
sequence: the accumulated OR mask, the last value written to each numeric
field (if any), and whether each boolean field was set.  The `...S`
functions below mirror the corresponding program functions, computing the
summary of the updates they perform; the correspondence is proved in the
theorems section and drives the idempotence claim.
-/

/-- Normal form of a sequence of configuration updates: last write per
numeric field, accumulated OR mask, and which booleans were set. -/
structure Summary where
  mask : Nat
  front_guard_bytes : Option Nat
  rear_guard_bytes : Option Nat
  backtrace_frames : Option Nat
  fill_on_alloc_bytes : Option Nat
  fill_on_free_bytes : Option Nat
  expand_alloc_bytes : Option Nat
  free_track_allocations : Option Nat
  free_track_backtrace_num_frames : Option Nat
  fill_alloc_value : Option Nat
  fill_free_value : Option Nat
  front_guard_value : Option Nat
  rear_guard_value : Option Nat
  backtrace_signal : Option Nat
  backtrace_enabled : Bool
  backtrace_enable_on_signal : Bool
deriving DecidableEq, Repr

/-- The summary of no updates. -/
def Summary.empty : Summary :=
  ⟨0, none, none, none, none, none, none, none, none, none, none, none, none, none,
    false, false⟩

/-- Override an optional last write by a later one. -/
def ov (old new : Option Nat) : Option Nat :=
  match new with
  | some v => some v
  | none => old

/-- Sequential composition of summaries (`t` runs after `s`). -/
def Summary.comb (s t : Summary) : Summary :=
  ⟨s.mask ||| t.mask,
    ov s.front_guard_bytes t.front_guard_bytes,
    ov s.rear_guard_bytes t.rear_guard_bytes,
    ov s.backtrace_frames t.backtrace_frames,
    ov s.fill_on_alloc_bytes t.fill_on_alloc_bytes,
    ov s.fill_on_free_bytes t.fill_on_free_bytes,
    ov s.expand_alloc_bytes t.expand_alloc_bytes,
    ov s.free_track_allocations t.free_track_allocations,
    ov s.free_track_backtrace_num_frames t.free_track_backtrace_num_frames,
    ov s.fill_alloc_value t.fill_alloc_value,
    ov s.fill_free_value t.fill_free_value,
    ov s.front_guard_value t.front_guard_value,
    ov s.rear_guard_value t.rear_guard_value,
    ov s.backtrace_signal t.backtrace_signal,
    s.backtrace_enabled || t.backtrace_enabled,
    s.backtrace_enable_on_signal || t.backtrace_enable_on_signal⟩

/-- Apply a summary of updates to a configuration. -/
def mergeInto (c : Config) (s : Summary) : Config :=
  ⟨c.options ||| s.mask,
    s.front_guard_bytes.getD c.front_guard_bytes,
    s.rear_guard_bytes.getD c.rear_guard_bytes,
    s.backtrace_frames.getD c.backtrace_frames,
    s.fill_on_alloc_bytes.getD c.fill_on_alloc_bytes,
    s.fill_on_free_bytes.getD c.fill_on_free_bytes,
    s.expand_alloc_bytes.getD c.expand_alloc_bytes,
    s.free_track_allocations.getD c.free_track_allocations,
    s.free_track_backtrace_num_frames.getD c.free_track_backtrace_num_frames,
    s.fill_alloc_value.getD c.fill_alloc_value,
    s.fill_free_value.getD c.fill_free_value,
    s.front_guard_value.getD c.front_guard_value,
    s.rear_guard_value.getD c.rear_guard_value,
    s.backtrace_signal.getD c.backtrace_signal,
    c.backtrace_enabled || s.backtrace_enabled,
    c.backtrace_enable_on_signal || s.backtrace_enable_on_signal⟩

/-- Summary of a single write through a `size_t*` slot. -/
def valSlotS (s : ValueSlot) (v : Nat) : Summary :=
  match s with
  | .frontGuardBytes => { Summary.empty with front_guard_bytes := some v }
  | .rearGuardBytes => { Summary.empty with rear_guard_bytes := some v }
  | .backtraceFrames => { Summary.empty with backtrace_frames := some v }
  | .fillOnAllocBytes => { Summary.empty with fill_on_alloc_bytes := some v }
  | .fillOnFreeBytes => { Summary.empty with fill_on_free_bytes := some v }
  | .expandAllocBytes => { Summary.empty with expand_alloc_bytes := some v }
  | .freeTrackAllocations => { Summary.empty with free_track_allocations := some v }
  | .freeTrackNumFrames =>
    { Summary.empty with free_track_backtrace_num_frames := some v }

/-- Summary of a single write through a `bool*` slot. -/
def boolSlotS (b : BoolSlot) : Summary :=
  match b with
  | .backtraceEnabled => { Summary.empty with backtrace_enabled := true }
  | .backtraceEnableOnSignal =>
    { Summary.empty with backtrace_enable_on_signal := true }

/-- Summary of a single `options |= m`. -/
def maskS (m : Nat) : Summary :=
  { Summary.empty with mask := m }

/-- Summary mirror of `SetFeature`. -/
def SetFeatureS (name : String) (feature : Feature) (value : Nat) (value_set : Bool) :
    Summary × Option ConfigError :=
  let s1 := match feature.config with
    | some b => boolSlotS b
    | none => Summary.empty
  match feature.value with
  | some slot =>
    if value_set then
      if value < feature.min_value then (s1, some (.belowMin name feature.min_value value))
      else if feature.max_value < value then
        (s1, some (.aboveMax name feature.max_value value))
      else (Summary.comb s1 (valSlotS slot value), none)
    else (Summary.comb s1 (valSlotS slot feature.default_value), none)
  | none =>
    if value_set then (s1, some (.unexpectedValue name)) else (s1, none)

/-- Summary mirror of `comboRun`. -/
def comboRunS (fs : List Feature) (name : String) (value : Nat) (value_set : Bool) :
    Summary × Option ConfigError :=
  match fs with
  | [] => (Summary.empty, none)
  | f :: rest =>
    if f.combo_option then
      match SetFeatureS name f value value_set with
      | (s, none) =>
        match comboRunS rest name value value_set with
        | (s2, e2) => (Summary.comb (Summary.comb s (maskS f.option)) s2, e2)
      | (s, some e) => (s, some e)
    else (Summary.empty, none)

/-- Summary mirror of `scanFeatures`. -/
def scanFeaturesS (fs : List Feature) (name : String) (value : Nat) (value_set : Bool) :
    Option (Summary × Option ConfigError) :=
  match fs with
  | [] => none
  | f :: rest =>
    if name = f.name then
      if f.option = 0 && f.combo_option then
        some (comboRunS rest name value value_set)
      else
        match SetFeatureS name f value value_set with
        | (s, none) => some (Summary.comb s (maskS f.option), none)
        | (s, some e) => some (s, some e)
    else scanFeaturesS rest name value value_set

/-- Summary mirror of `stepToken`. -/
def stepTokenS (found : Bool) (name : String) (value : Option Nat) :
    Summary × Bool × Option ConfigError :=
  match scanFeaturesS features name (value.getD 0) value.isSome with
  | none =>
    if found then (Summary.empty, found, none)
    else (Summary.empty, found, some (.unknownOption name))
  | some (s, none) => (s, true, none)
  | some (s, some e) => (s, found, some e)

/-- Summary mirror of `loopGo`. -/
def loopGoS (n : Nat) (found : Bool) (l : List Char) :
    Summary × Bool × Option ConfigError :=
  match n with
  | 0 => (Summary.empty, false, none)
  | n + 1 =>
    match PropertyParser.Get l with
    | .done => (Summary.empty, true, none)
    | .err e => (Summary.empty, false, some e)
    | .tok name v rest =>
      match stepTokenS found name v with
      | (s, found1, none) =>
        match loopGoS n found1 rest with
        | (s2, v2, e2) => (Summary.comb s s2, v2, e2)
      | (s, _, some e) => (s, false, some e)

/-- Summary of the default-value initialization at the top of
`Config::SetFromProperties`. -/
def initS : Summary :=
  { Summary.empty with
    fill_alloc_value := some 0xeb,
    fill_free_value := some 0xef,
    front_guard_value := some 0xaa,
    rear_guard_value := some 0xbb,
    backtrace_signal := some (SIGRTMIN + 10),
    free_track_backtrace_num_frames := some 16 }

/-! ### Helper lemmas about the tokenizer -/

theorem takeWhile_all_append (p : Char → Bool) (l r : List Char)
    (h : ∀ c ∈ l, p c = true) : (l ++ r).takeWhile p = l ++ r.takeWhile p := by
  induction l with
  | nil => simp
  | cons a t ih =>
    have ha : p a = true := h a (List.mem_cons_self a t)
    have ih2 := ih fun c hc => h c (List.mem_cons_of_mem a hc)
    simp [List.takeWhile_cons, ha, ih2]

theorem dropWhile_all_append (p : Char → Bool) (l r : List Char)
    (h : ∀ c ∈ l, p c = true) : (l ++ r).dropWhile p = r.dropWhile p := by
  induction l with
  | nil => simp
  | cons a t ih =>
    have ha : p a = true := h a (List.mem_cons_self a t)
    have ih2 := ih fun c hc => h c (List.mem_cons_of_mem a hc)
    simp [List.dropWhile_cons, ha, ih2]

theorem isspaceChar_of_notNameEnd {a : Char} (h : notNameEnd a = true) :
    isspaceChar a = false := by
  unfold notNameEnd at h
  cases hI : isspaceChar a <;> simp [hI] at h ⊢

/-- A well-formed option name followed by `=` and arbitrary value text is
tokenized by `PropertyParser.Get` through its `*cur_ == '='` branch. -/
theorem Get_eq_getValue (nm vs : List Char) (h1 : nm ≠ [])
    (h2 : ∀ c ∈ nm, notNameEnd c = true) :
    PropertyParser.Get (nm ++ '=' :: vs) = getValue (String.mk nm) vs := by
  obtain ⟨a, t, rfl⟩ := List.exists_cons_of_ne_nil h1
  have ha : notNameEnd a = true := h2 a (List.mem_cons_self a t)
  have haS : isspaceChar a = false := isspaceChar_of_notNameEnd ha
  have hEq : notNameEnd '=' = false := by decide
  have hSp : isspaceChar '=' = false := by decide
  have ht : ∀ c ∈ t, notNameEnd c = true := fun c hc => h2 c (List.mem_cons_of_mem a hc)
  have htake : List.takeWhile notNameEnd (t ++ '=' :: vs) = t := by
    rw [takeWhile_all_append notNameEnd t ('=' :: vs) ht]
    simp [List.takeWhile_cons, hEq]
  have hdrop : List.dropWhile notNameEnd (t ++ '=' :: vs) = '=' :: vs := by
    rw [dropWhile_all_append notNameEnd t ('=' :: vs) ht]
    simp [List.dropWhile_cons, hEq]
  unfold PropertyParser.Get
  simp [List.dropWhile_cons, List.takeWhile_cons, haS, ha, htake, hdrop, hSp]

theorem takeWhile_all (p : Char → Bool) (l : List Char) (h : ∀ c ∈ l, p c = true) :
    l.takeWhile p = l := by
  induction l with
  | nil => simp
  | cons a t ih =>
    have ha : p a = true := h a (List.mem_cons_self a t)
    have ih2 := ih fun c hc => h c (List.mem_cons_of_mem a hc)
    simp [List.takeWhile_cons, ha, ih2]

theorem dropWhile_all (p : Char → Bool) (l : List Char) (h : ∀ c ∈ l, p c = true) :
    l.dropWhile p = [] := by
  induction l with
  | nil => simp
  | cons a t ih =>
    have ha : p a = true := h a (List.mem_cons_self a t)
    have ih2 := ih fun c hc => h c (List.mem_cons_of_mem a hc)
    simp [List.dropWhile_cons, ha, ih2]

theorem isspaceChar_of_digit {c : Char} (h : isdigitChar c = true) :
    isspaceChar c = false := by
  cases hs : isspaceChar c with
  | false => rfl
  | true =>
    exfalso
    unfold isspaceChar at hs
    simp only [Bool.or_eq_true, decide_eq_true_eq] at hs
    rcases hs with ((((rfl | rfl) | rfl) | rfl) | rfl) | rfl <;> exact absurd h (by decide)

theorem ne_dash_of_digit {c : Char} (h : isdigitChar c = true) : ¬ c = '-' := by
  rintro rfl; exact absurd h (by decide)

theorem ne_plus_of_digit {c : Char} (h : isdigitChar c = true) : ¬ c = '+' := by
  rintro rfl; exact absurd h (by decide)

/-- Behavior of `strtol` on a plain non-empty digit string within `long` range. -/
theorem strtol10_all_digits (ds : List Char) (h1 : ds ≠ [])
    (h2 : ∀ c ∈ ds, isdigitChar c = true) (h3 : (digitsToNat ds : Int) ≤ LONG_MAX) :
    strtol10 ds = ⟨(digitsToNat ds : Int), [], false, true⟩ := by
  obtain ⟨d, dt, rfl⟩ := List.exists_cons_of_ne_nil h1
  have hd : isdigitChar d = true := h2 d (List.mem_cons_self d dt)
  have hsp : isspaceChar d = false := isspaceChar_of_digit hd
  have htake := takeWhile_all isdigitChar (d :: dt) h2
  have hdrop := dropWhile_all isdigitChar (d :: dt) h2
  unfold strtol10
  simp only [List.dropWhile_cons, hsp, Bool.false_eq_true, if_false]
  simp [ne_dash_of_digit hd, ne_plus_of_digit hd, htake, hdrop, not_lt_of_le h3,
    lt_irrefl, LONG_MIN]
  omega

/-- Behavior of `strtol` on a `+`-signed non-empty digit string within `long` range:
the sign is accepted and the value is positive. -/
theorem strtol10_plus_digits (ds : List Char) (h1 : ds ≠ [])
    (h2 : ∀ c ∈ ds, isdigitChar c = true) (h3 : (digitsToNat ds : Int) ≤ LONG_MAX) :
    strtol10 ('+' :: ds) = ⟨(digitsToNat ds : Int), [], false, true⟩ := by
  have htake := takeWhile_all isdigitChar ds h2
  have hdrop := dropWhile_all isdigitChar ds h2
  unfold strtol10
  simp only [List.dropWhile_cons, show isspaceChar '+' = false from rfl,
    Bool.false_eq_true, if_false]
  simp [htake, hdrop, h1, not_lt_of_le h3, LONG_MIN]
  omega

/-- Behavior of `strtol` on a `-`-signed non-empty digit string whose magnitude is
within `long` range: the result is the negated value. -/
theorem strtol10_dash_digits (ds : List Char) (h1 : ds ≠ [])
    (h2 : ∀ c ∈ ds, isdigitChar c = true) (h3 : (digitsToNat ds : Int) ≤ LONG_MAX) :
    strtol10 ('-' :: ds) = ⟨-(digitsToNat ds : Int), [], false, true⟩ := by
  have htake := takeWhile_all isdigitChar ds h2
  have hdrop := dropWhile_all isdigitChar ds h2
  unfold strtol10
  have h3n : digitsToNat ds ≤ 9223372036854775807 := by
    have h := h3
    norm_num [LONG_MAX] at h
    exact_mod_cast h
  simp only [List.dropWhile_cons, show isspaceChar '-' = false from rfl,
    Bool.false_eq_true, if_false]
  simp [htake, hdrop, h1, LONG_MIN, LONG_MAX]
  split_ifs with ha hb
  · exfalso; omega
  · exfalso; omega
  · rfl

/-- Behavior of `strtol` on a non-empty digit string above `LONG_MAX`: clamp and ERANGE. -/
theorem strtol10_digits_erange (ds : List Char) (h1 : ds ≠ [])
    (h2 : ∀ c ∈ ds, isdigitChar c = true) (h3 : LONG_MAX < (digitsToNat ds : Int)) :
    strtol10 ds = ⟨LONG_MAX, [], true, true⟩ := by
  obtain ⟨d, dt, rfl⟩ := List.exists_cons_of_ne_nil h1
  have hd : isdigitChar d = true := h2 d (List.mem_cons_self d dt)
  have hsp : isspaceChar d = false := isspaceChar_of_digit hd
  have htake := takeWhile_all isdigitChar (d :: dt) h2
  have hdrop := dropWhile_all isdigitChar (d :: dt) h2
  unfold strtol10
  simp only [List.dropWhile_cons, hsp, Bool.false_eq_true, if_false]
  simp [ne_dash_of_digit hd, ne_plus_of_digit hd, htake, hdrop, h3]

theorem getValue_digits (name : String) (ds : List Char) (h1 : ds ≠ [])
    (h2 : ∀ c ∈ ds, isdigitChar c = true) (h3 : (digitsToNat ds : Int) ≤ LONG_MAX) :
    getValue name ds = .tok name (some (digitsToNat ds)) [] := by
  unfold getValue
  rw [strtol10_all_digits ds h1 h2 h3]
  simp

theorem getValue_plus_digits (name : String) (ds : List Char) (h1 : ds ≠ [])
    (h2 : ∀ c ∈ ds, isdigitChar c = true) (h3 : (digitsToNat ds : Int) ≤ LONG_MAX) :
    getValue name ('+' :: ds) = .tok name (some (digitsToNat ds)) [] := by
  unfold getValue
  rw [strtol10_plus_digits ds h1 h2 h3]
  simp

theorem getValue_dash_digits_pos (name : String) (ds : List Char) (h1 : ds ≠ [])
    (h2 : ∀ c ∈ ds, isdigitChar c = true) (h3 : (digitsToNat ds : Int) ≤ LONG_MAX)
    (h4 : 0 < digitsToNat ds) :
    getValue name ('-' :: ds) = .err (.negativeValue name (-(digitsToNat ds : Int))) := by
  unfold getValue
  rw [strtol10_dash_digits ds h1 h2 h3]
  have : (-(digitsToNat ds : Int)) < 0 := by omega
  simp [this]

theorem getValue_dash_digits_zero (name : String) (ds : List Char) (h1 : ds ≠ [])
    (h2 : ∀ c ∈ ds, isdigitChar c = true) (h4 : digitsToNat ds = 0) :
    getValue name ('-' :: ds) = .tok name (some 0) [] := by
  unfold getValue
  rw [strtol10_dash_digits ds h1 h2 (by rw [h4]; norm_num [LONG_MAX])]
  simp [h4]

theorem getValue_digits_erange (name : String) (ds : List Char) (h1 : ds ≠ [])
    (h2 : ∀ c ∈ ds, isdigitChar c = true) (h3 : LONG_MAX < (digitsToNat ds : Int)) :
    getValue name ds = .err (.rangeErrno name) := by
  unfold getValue
  rw [strtol10_digits_erange ds h1 h2 h3]
  simp

theorem getValueSlot_setValueSlot (s : ValueSlot) (v : Nat) (c : Config) :
    getValueSlot s (setValueSlot s v c) = v := by
  cases s <;> rfl

/-! ### Claim theorems -/

/-- C1 (code bug exhibit): the spec requires every token whose name matches
no feature-table entry to fail the build with an unknown-option error, no
matter what came before it.  The code initializes its `found` flag once,
outside the token loop, and never resets it, so an unknown option is only
detected while no earlier token has matched: `"unknown_option=5"` fails as
specified, but `"backtrace=10 unknown_option=5"` silently ignores the
unknown token and the build succeeds. -/
theorem c1_unknown_option_sticky_found :
    (Config.SetFromProperties Config.init "backtrace=10 unknown_option=5").2.1 = true ∧
    (Config.SetFromProperties Config.init "backtrace=10 unknown_option=5").2.2 = none ∧
    (Config.SetFromProperties Config.init "unknown_option=5").2.1 = false ∧
    (Config.SetFromProperties Config.init "unknown_option=5").2.2 =
      some (ConfigError.unknownOption "unknown_option") := by
  refine ⟨by decide, by decide, by decide, by decide⟩

/-- C2 (counterexample): the parser does not reject every leading-sign
value; `"backtrace=+5"` is tokenized successfully with value 5 and the
whole build succeeds, storing 5 frames. -/
theorem c2_plus_sign_accepted :
    PropertyParser.Get ("backtrace=+5".data) = GetResult.tok "backtrace" (some 5) [] ∧
    (Config.SetFromProperties Config.init "backtrace=+5").2.1 = true ∧
    (Config.SetFromProperties Config.init "backtrace=+5").1.backtrace_frames = 5 := by
  refine ⟨by decide, by decide, by decide⟩

/-- C2 (amended): values are parsed with `strtol` semantics, which accept
an optional leading sign; a signed token is rejected exactly when the
resulting value is negative.  So `name=+D` succeeds with value `D`,
`name=-D` fails (negative value) when `D > 0`, and `name=-0` succeeds
with value 0. -/
theorem c2_sign_semantics (ds : List Char) (h1 : ds ≠ [])
    (h2 : ∀ c ∈ ds, isdigitChar c = true) (h3 : (digitsToNat ds : Int) ≤ LONG_MAX) :
    PropertyParser.Get ("backtrace".data ++ '=' :: '+' :: ds) =
      GetResult.tok "backtrace" (some (digitsToNat ds)) [] ∧
    (0 < digitsToNat ds →
      PropertyParser.Get ("backtrace".data ++ '=' :: '-' :: ds) =
        GetResult.err (ConfigError.negativeValue "backtrace" (-(digitsToNat ds : Int)))) ∧
    (digitsToNat ds = 0 →
      PropertyParser.Get ("backtrace".data ++ '=' :: '-' :: ds) =
        GetResult.tok "backtrace" (some 0) []) := by
  have hnm : ∀ c ∈ "backtrace".data, notNameEnd c = true := by decide
  have hne : "backtrace".data ≠ [] := by decide
  have hmk : String.mk ("backtrace".data) = "backtrace" := rfl
  refine ⟨?_, fun h4 => ?_, fun h4 => ?_⟩
  · rw [Get_eq_getValue _ _ hne hnm, hmk]
    exact getValue_plus_digits _ ds h1 h2 h3
  · rw [Get_eq_getValue _ _ hne hnm, hmk]
    exact getValue_dash_digits_pos _ ds h1 h2 h3 h4
  · rw [Get_eq_getValue _ _ hne hnm, hmk]
    exact getValue_dash_digits_zero _ ds h1 h2 h4

/-- Witness for `c2_sign_semantics` at the digit string `"5"`. -/
theorem c2_sign_semantics_witness :
    PropertyParser.Get ("backtrace".data ++ '=' :: '+' :: ['5']) =
      GetResult.tok "backtrace" (some (digitsToNat ['5'])) [] :=
  (c2_sign_semantics ['5'] (by decide) (by decide) (by decide)).1

/-- C4: `"free_track"` alone succeeds with the fill-on-free bit set and
`fill_on_free_bytes` normalized to `SIZE_MAX` by the post-parse pass, even
though the `free_track` table entry's own value slot is
`free_track_allocations` (written with its default 100) and not
`fill_on_free_bytes`. -/
theorem c4_free_track_implies_fill_on_free :
    (Config.SetFromProperties Config.init "free_track").2.1 = true ∧
    (Config.SetFromProperties Config.init "free_track").1.options &&& FILL_ON_FREE ≠ 0 ∧
    (Config.SetFromProperties Config.init "free_track").1.fill_on_free_bytes = SIZE_MAX ∧
    (Config.SetFromProperties Config.init "free_track").1.free_track_allocations = 100 ∧
    (features.getD 9 ⟨"", 0, 0, 0, 0, none, none, false⟩).name = "free_track" ∧
    (features.getD 9 ⟨"", 0, 0, 0, 0, none, none, false⟩).value =
      some ValueSlot.freeTrackAllocations ∧
    (features.getD 9 ⟨"", 0, 0, 0, 0, none, none, false⟩).option &&& FILL_ON_FREE ≠ 0 := by
  refine ⟨by decide, by decide, by decide, by decide, by decide, by decide, by decide⟩

/-- C5: for every table entry with a numeric output slot, a supplied value
below `min_value` (resp. above `max_value`) makes the applier fail with a
range error naming the option and the offending bound, while an absent
value writes the entry's default into the slot; at build level,
`"backtrace=0"` fails overall with the below-minimum error (0 < min 1). -/
theorem c5_range_check_and_default :
    (∀ f slot, f ∈ features → f.value = some slot →
      ∀ (name : String) (c : Config) (v : Nat),
        (v < f.min_value →
          (SetFeature name f v true c).2 = some (ConfigError.belowMin name f.min_value v)) ∧
        (f.max_value < v →
          (SetFeature name f v true c).2 = some (ConfigError.aboveMax name f.max_value v)) ∧
        (SetFeature name f v false c).2 = none ∧
        getValueSlot slot (SetFeature name f v false c).1 = f.default_value) ∧
    (Config.SetFromProperties Config.init "backtrace=0").2.1 = false ∧
    (Config.SetFromProperties Config.init "backtrace=0").2.2 =
      some (ConfigError.belowMin "backtrace" 1 0) := by
  refine ⟨?_, by decide, by decide⟩
  intro f slot hf hval name c v
  have hmm : f.min_value ≤ f.max_value := by fin_cases hf <;> decide
  unfold SetFeature
  rw [hval]
  refine ⟨fun h => ?_, fun h => ?_, ?_, ?_⟩
  · simp [h]
  · have hnlt : ¬ v < f.min_value := by omega
    simp [h, hnlt]
  · simp
  · simp [getValueSlot_setValueSlot]

/-- Witness for `c5_range_check_and_default` at the `backtrace` entry. -/
theorem c5_range_check_and_default_witness :
    (SetFeature "backtrace"
        ⟨"backtrace", 16, 1, 256, BACKTRACE ||| TRACK_ALLOCS, some .backtraceFrames,
          some .backtraceEnabled, false⟩ 0 true Config.init).2 =
      some (ConfigError.belowMin "backtrace" 1 0) :=
  ((c5_range_check_and_default.1 _ ValueSlot.backtraceFrames (by decide) rfl
    "backtrace" Config.init 0).1 (by decide))

/-- C7: a table entry without a numeric output slot (among the non-marker
entries, only `leak_track`) fails with an unexpected-value error whenever a
value is supplied and succeeds when selected bare; at build level,
`"leak_track=1"` fails overall while `"leak_track"` succeeds and sets the
leak-track and track-allocations bits. -/
theorem c7_unexpected_value :
    (∀ f, f ∈ features → f.value = none → ¬(f.option = 0 ∧ f.combo_option = true) →
      ∀ (name : String) (c : Config) (v : Nat),
        (SetFeature name f v true c).2 = some (ConfigError.unexpectedValue name) ∧
        (SetFeature name f v false c).2 = none) ∧
    (Config.SetFromProperties Config.init "leak_track=1").2.1 = false ∧
    (Config.SetFromProperties Config.init "leak_track=1").2.2 =
      some (ConfigError.unexpectedValue "leak_track") ∧
    (Config.SetFromProperties Config.init "leak_track").2.1 = true ∧
    (Config.SetFromProperties Config.init "leak_track").1.options &&& LEAK_TRACK ≠ 0 ∧
    (Config.SetFromProperties Config.init "leak_track").1.options &&& TRACK_ALLOCS ≠ 0 := by
  refine ⟨?_, by decide, by decide, by decide, by decide, by decide⟩
  intro f hf hval hmark name c v
  unfold SetFeature
  rw [hval]
  simp

/-- Witness for `c7_unexpected_value` at the `leak_track` entry. -/
theorem c7_unexpected_value_witness :
    (SetFeature "leak_track"
        ⟨"leak_track", 0, 0, 0, LEAK_TRACK ||| TRACK_ALLOCS, none, none, false⟩
        1 true Config.init).2 = some (ConfigError.unexpectedValue "leak_track") :=
  ((c7_unexpected_value.1 _ (by decide) rfl (by decide) "leak_track" Config.init 1).1)

/-- C3: the `guard` combo marker applies the same supplied value to both
guard entries of its contiguous run (for any in-range value), ORing both
flags; at build level `"guard=10"` succeeds with both guard bits set,
`front_guard_bytes` rounded up to `MINIMUM_ALIGNMENT_BYTES` (10 → 16) by
the normalization pass, and `rear_guard_bytes` exactly 10. -/
theorem c3_guard_combo :
    ((Config.SetFromProperties Config.init "guard=10").2.1 = true ∧
     (Config.SetFromProperties Config.init "guard=10").1.front_guard_bytes = 16 ∧
     (Config.SetFromProperties Config.init "guard=10").1.rear_guard_bytes = 10 ∧
     (Config.SetFromProperties Config.init "guard=10").1.options &&& FRONT_GUARD ≠ 0 ∧
     (Config.SetFromProperties Config.init "guard=10").1.options &&& REAR_GUARD ≠ 0 ∧
     BIONIC_ALIGN 10 MINIMUM_ALIGNMENT_BYTES = 16) ∧
    ∀ (c : Config) (v : Nat), 1 ≤ v → v ≤ 16384 →
      scanFeatures features "guard" v true c =
        some ({ c with options := c.options ||| FRONT_GUARD ||| REAR_GUARD,
                       front_guard_bytes := v, rear_guard_bytes := v }, none) := by
  refine ⟨⟨by decide, by decide, by decide, by decide, by decide, by decide⟩, ?_⟩
  intro c v h1 h2
  have hv1 : ¬ v < 1 := by omega
  have hv2 : ¬ 16384 < v := by omega
  simp [scanFeatures, features, comboRun, SetFeature, setValueSlot, hv1, hv2]

/-- Witness for `c3_guard_combo` at `v = 10` from the zero configuration. -/
theorem c3_guard_combo_witness :
    scanFeatures features "guard" 10 true Config.init =
      some ({ Config.init with options := Config.init.options ||| FRONT_GUARD ||| REAR_GUARD,
                               front_guard_bytes := 10, rear_guard_bytes := 10 }, none) :=
  c3_guard_combo.2 Config.init 10 (by decide) (by decide)

/-- C9: `backtrace` and `backtrace_enable_on_signal` share the single
`backtrace_frames` output slot (there is no second frame-count field);
applying both tokens with in-range explicit values leaves the value of
whichever was applied later in `backtrace_frames`, while each option's own
boolean field is set independently of the other. -/
theorem c9_shared_backtrace_frames :
    ((features.getD 3 ⟨"", 0, 0, 0, 0, none, none, false⟩).value =
       some ValueSlot.backtraceFrames ∧
     (features.getD 4 ⟨"", 0, 0, 0, 0, none, none, false⟩).value =
       some ValueSlot.backtraceFrames) ∧
    ∀ (c : Config) (v1 v2 : Nat), 1 ≤ v1 → v1 ≤ 256 → 1 ≤ v2 → v2 ≤ 256 →
      ((stepToken (stepToken c true "backtrace" (some v1)).1 true
          "backtrace_enable_on_signal" (some v2)).1.backtrace_frames = v2 ∧
       (stepToken (stepToken c true "backtrace" (some v1)).1 true
          "backtrace_enable_on_signal" (some v2)).1.backtrace_enabled = true ∧
       (stepToken (stepToken c true "backtrace" (some v1)).1 true
          "backtrace_enable_on_signal" (some v2)).1.backtrace_enable_on_signal = true ∧
       (stepToken (stepToken c true "backtrace" (some v1)).1 true
          "backtrace_enable_on_signal" (some v2)).2 = (true, none)) ∧
      ((stepToken (stepToken c true "backtrace_enable_on_signal" (some v2)).1 true
          "backtrace" (some v1)).1.backtrace_frames = v1 ∧
       (stepToken (stepToken c true "backtrace_enable_on_signal" (some v2)).1 true
          "backtrace" (some v1)).1.backtrace_enabled = true ∧
       (stepToken (stepToken c true "backtrace_enable_on_signal" (some v2)).1 true
          "backtrace" (some v1)).1.backtrace_enable_on_signal = true ∧
       (stepToken (stepToken c true "backtrace_enable_on_signal" (some v2)).1 true
          "backtrace" (some v1)).2 = (true, none)) := by
  refine ⟨⟨by decide, by decide⟩, ?_⟩
  intro c v1 v2 h11 h12 h21 h22
  have hv11 : ¬ v1 < 1 := by omega
  have hv12 : ¬ 256 < v1 := by omega
  have hv21 : ¬ v2 < 1 := by omega
  have hv22 : ¬ 256 < v2 := by omega
  refine ⟨?_, ?_⟩ <;>
    simp [stepToken, scanFeatures, features, SetFeature, setValueSlot, setBoolSlot,
      hv11, hv12, hv21, hv22]

/-- Witness for `c9_shared_backtrace_frames` at values 10 and 20. -/
theorem c9_shared_backtrace_frames_witness :
    (stepToken (stepToken Config.init true "backtrace" (some 10)).1 true
        "backtrace_enable_on_signal" (some 20)).1.backtrace_frames = 20 :=
  (c9_shared_backtrace_frames.2 Config.init 10 20
    (by decide) (by decide) (by decide) (by decide)).1.1

theorem strtol10_value_le (l : List Char) (h : (strtol10 l).erange = false) :
    (strtol10 l).value ≤ LONG_MAX := by
  unfold strtol10 at h ⊢
  dsimp only at h ⊢
  split_ifs at h ⊢ <;> norm_num [LONG_MAX, LONG_MIN] at * <;> omega

theorem getValue_tok_le {name nm : String} {r3 r : List Char} {v : Nat}
    (h : getValue name r3 = .tok nm (some v) r) : v ≤ 2 ^ 63 - 1 := by
  unfold getValue at h
  dsimp only at h
  split_ifs at h with h1 h2 h3 h4 <;> simp at h
  have hle : (strtol10 r3).value ≤ LONG_MAX :=
    strtol10_value_le r3 (by simpa using h1)
  have hv : (strtol10 r3).value.toNat = v := h.2.1
  have hle2 : (strtol10 r3).value ≤ (2 : Int) ^ 63 - 1 := by
    simpa [LONG_MAX] using hle
  omega

/-- C10: the parser converts through a signed `long`, so no token value
above `LONG_MAX` can ever be produced: (a) every successfully parsed value
is at most `2^63 - 1`; (b) a well-formed token whose digit string exceeds
`LONG_MAX` fails with the ERANGE error, even though the `fill`,
`fill_on_alloc` and `fill_on_free` rows declare `max_value = SIZE_MAX`;
hence `SIZE_MAX` in those fields is reachable only via the defaults. -/
theorem c10_values_capped_at_long_max :
    (∀ (l : List Char) (nm : String) (v : Nat) (r : List Char),
       PropertyParser.Get l = .tok nm (some v) r → v ≤ 2 ^ 63 - 1) ∧
    (∀ nm ds, nm ≠ [] → (∀ c ∈ nm, notNameEnd c = true) → ds ≠ [] →
       (∀ c ∈ ds, isdigitChar c = true) → LONG_MAX < (digitsToNat ds : Int) →
       PropertyParser.Get (nm ++ '=' :: ds) = .err (.rangeErrno (String.mk nm))) ∧
    ((features.getD 5 ⟨"", 0, 0, 0, 0, none, none, false⟩).max_value = SIZE_MAX ∧
     (features.getD 6 ⟨"", 0, 0, 0, 0, none, none, false⟩).max_value = SIZE_MAX ∧
     (features.getD 7 ⟨"", 0, 0, 0, 0, none, none, false⟩).max_value = SIZE_MAX ∧
     2 ^ 63 - 1 < SIZE_MAX) := by
  refine ⟨?_, ?_, by decide, by decide, by decide, by decide⟩
  · intro l nm v r h
    unfold PropertyParser.Get at h
    dsimp only at h
    split at h
    · exact absurd h (by simp)
    · split at h
      · exact getValue_tok_le h
      · exact absurd h (by simp)
  · intro nm ds hne hnm hds hdig hgt
    rw [Get_eq_getValue nm ds hne hnm]
    exact getValue_digits_erange _ ds hds hdig hgt

/-- Witness for `c10_values_capped_at_long_max`: a 20-digit value for
`fill` is rejected with the ERANGE error. -/
theorem c10_values_capped_at_long_max_witness :
    PropertyParser.Get ("fill".data ++ '=' :: "99999999999999999999".data) =
      .err (.rangeErrno (String.mk "fill".data)) :=
  c10_values_capped_at_long_max.2.1 "fill".data "99999999999999999999".data
    (by decide) (by decide) (by decide) (by decide) (by decide)

/-- C6: for a well-formed `name=value` token, `PropertyParser::Get` fails
exactly when the numeric text cannot be converted (no digits, or overflow
of the signed `long` conversion, reported via `errno`), when a non-space
character follows the converted number, or when the converted number is
negative; at build level, `"backtrace=10 extra_garbage=notanumber"` fails
overall at the second token with the no-digits (malformed number) error. -/
theorem c6_parse_error_conditions :
    (∀ nm vs, nm ≠ [] → (∀ c ∈ nm, notNameEnd c = true) →
      ((∃ e, PropertyParser.Get (nm ++ '=' :: vs) = .err e) ↔
        ((strtol10 vs).erange = true ∨ (strtol10 vs).converted = false ∨
         (∃ c cs, (strtol10 vs).rest = c :: cs ∧ isspaceChar c = false) ∨
         (strtol10 vs).value < 0))) ∧
    (Config.SetFromProperties Config.init "backtrace=10 extra_garbage=notanumber").2.1
      = false ∧
    (Config.SetFromProperties Config.init "backtrace=10 extra_garbage=notanumber").2.2
      = some (ConfigError.noDigits "extra_garbage") := by
  refine ⟨?_, by decide, by decide⟩
  intro nm vs hne hnm
  rw [Get_eq_getValue nm vs hne hnm]
  unfold getValue
  dsimp only
  split_ifs with h1 h2 h3 h4
  · constructor
    · intro _
      exact Or.inl h1
    · intro _
      exact ⟨_, rfl⟩
  · constructor
    · intro _
      exact Or.inr (Or.inl (by simpa using h2))
    · intro _
      exact ⟨_, rfl⟩
  · constructor
    · intro _
      refine Or.inr (Or.inr (Or.inl ?_))
      rcases hr : (strtol10 vs).rest with _ | ⟨c, cs⟩
      · rw [hr] at h3
        simp at h3
      · rw [hr] at h3
        exact ⟨c, cs, rfl, by simpa using h3⟩
    · intro _
      exact ⟨_, rfl⟩
  · constructor
    · intro _
      exact Or.inr (Or.inr (Or.inr h4))
    · intro _
      exact ⟨_, rfl⟩
  · constructor
    · rintro ⟨e, he⟩
      exact absurd he (by simp)
    · rintro (hc | hc | ⟨c, cs, hr, hsp⟩ | hc)
      · exact absurd hc (by simpa using h1)
      · exact absurd hc (by simp_all)
      · rw [hr] at h3
        simp [hsp] at h3
      · exact absurd hc h4

/-- Witness for `c6_parse_error_conditions`: trailing garbage after the
number in `"backtrace=10x"` is a parse error. -/
theorem c6_parse_error_conditions_witness :
    ∃ e, PropertyParser.Get ("backtrace".data ++ '=' :: "10x".data) = .err e :=
  ((c6_parse_error_conditions.1 "backtrace".data "10x".data (by decide)
      (by decide)).mpr
    (Or.inr (Or.inr (Or.inl ⟨'x', [], by decide, by decide⟩))))

/-! ### The summary correspondence and idempotence of the build -/

theorem ov_getD (o n : Option Nat) (a : Nat) : (ov o n).getD a = n.getD (o.getD a) := by
  cases n <;> rfl

theorem getD_getD (o : Option Nat) (a : Nat) : o.getD (o.getD a) = o.getD a := by
  cases o <;> rfl

theorem mergeInto_empty (c : Config) : mergeInto c Summary.empty = c := by
  ext <;> simp [mergeInto, Summary.empty]

theorem mergeInto_comb (c : Config) (s t : Summary) :
    mergeInto (mergeInto c s) t = mergeInto c (Summary.comb s t) := by
  ext <;> simp [mergeInto, Summary.comb, ov_getD, Nat.lor_assoc, Bool.or_assoc]

theorem mergeInto_maskS (c : Config) (m : Nat) :
    mergeInto c (maskS m) = { c with options := c.options ||| m } := by
  ext <;> simp [mergeInto, maskS, Summary.empty]

theorem mergeInto_self (c : Config) (s : Summary) :
    mergeInto (mergeInto c s) s = mergeInto c s := by
  ext <;> simp [mergeInto, getD_getD, Nat.lor_assoc, Bool.or_assoc]

theorem ov_none_left (x : Option Nat) : ov none x = x := by
  cases x <;> rfl

theorem comb_empty_left (t : Summary) : Summary.comb Summary.empty t = t := by
  simp [Summary.comb, Summary.empty, ov_none_left]

theorem setValueSlot_merge (slot : ValueSlot) (v : Nat) (c : Config) :
    setValueSlot slot v c = mergeInto c (valSlotS slot v) := by
  cases slot <;> ext <;> simp [setValueSlot, valSlotS, mergeInto, Summary.empty]

theorem setBoolSlot_merge (b : BoolSlot) (c : Config) :
    setBoolSlot b c = mergeInto c (boolSlotS b) := by
  cases b <;> ext <;> simp [setBoolSlot, boolSlotS, mergeInto, Summary.empty]

theorem SetFeature_merge (name : String) (f : Feature) (v : Nat) (vset : Bool)
    (c : Config) :
    SetFeature name f v vset c =
      (mergeInto c (SetFeatureS name f v vset).1, (SetFeatureS name f v vset).2) := by
  unfold SetFeature SetFeatureS
  cases hc : f.config with
  | none =>
    cases hv : f.value with
    | none =>
      cases vset <;> simp [mergeInto_empty]
    | some slot =>
      cases vset
      · simp [setValueSlot_merge, mergeInto_comb, mergeInto_empty, comb_empty_left]
      · split_ifs <;>
          simp [setValueSlot_merge, mergeInto_comb, mergeInto_empty, comb_empty_left]
  | some b =>
    cases hv : f.value with
    | none =>
      cases vset <;> simp [setBoolSlot_merge]
    | some slot =>
      cases vset
      · simp [setBoolSlot_merge, setValueSlot_merge, mergeInto_comb]
      · split_ifs <;> simp [setBoolSlot_merge, setValueSlot_merge, mergeInto_comb]

theorem comboRun_merge (fs : List Feature) (name : String) (v : Nat) (vset : Bool)
    (c : Config) :
    comboRun fs name v vset c =
      (mergeInto c (comboRunS fs name v vset).1, (comboRunS fs name v vset).2) := by
  induction fs generalizing c with
  | nil => simp [comboRun, comboRunS, mergeInto_empty]
  | cons f rest ih =>
    unfold comboRun comboRunS
    by_cases hcombo : f.combo_option = true
    · rcases hsf : SetFeatureS name f v vset with ⟨s1, e1⟩
      have hmf := SetFeature_merge name f v vset c
      rw [hsf] at hmf
      cases e1 with
      | none =>
        rcases hrest : comboRunS rest name v vset with ⟨s2, e2⟩
        simp only [hcombo, if_true, hmf, hsf, hrest]
        have hopt : { mergeInto c s1 with
            options := (mergeInto c s1).options ||| f.option } =
            mergeInto c (Summary.comb s1 (maskS f.option)) := by
          rw [← mergeInto_maskS, mergeInto_comb]
        rw [hopt, ih, hrest, mergeInto_comb]
      | some e =>
        simp only [hcombo, if_true, hmf, hsf]
    · simp [hcombo, mergeInto_empty]

theorem scanFeatures_merge (fs : List Feature) (name : String) (v : Nat) (vset : Bool)
    (c : Config) :
    scanFeatures fs name v vset c =
      (scanFeaturesS fs name v vset).map (fun p => (mergeInto c p.1, p.2)) := by
  induction fs generalizing c with
  | nil => simp [scanFeatures, scanFeaturesS]
  | cons f rest ih =>
    unfold scanFeatures scanFeaturesS
    by_cases hname : name = f.name
    · subst hname
      simp only [eq_self_iff_true, if_true]
      by_cases hmark : (f.option = 0 && f.combo_option) = true
      · simp only [hmark, if_true, comboRun_merge]
        simp
      · have hmark2 : (decide (f.option = 0) && f.combo_option) = false :=
          Bool.eq_false_iff.mpr hmark
        simp only [hmark2, Bool.false_eq_true, if_false]
        rcases hsf : SetFeatureS f.name f v vset with ⟨s1, e1⟩
        have hmf := SetFeature_merge f.name f v vset c
        rw [hsf] at hmf
        cases e1 with
        | none =>
          rw [hmf]
          simp [← mergeInto_comb, mergeInto_maskS]
        | some e =>
          rw [hmf]
          simp
    · simp only [hname, if_false, ih]

theorem stepToken_merge (c : Config) (found : Bool) (name : String) (v : Option Nat) :
    stepToken c found name v =
      (mergeInto c (stepTokenS found name v).1, (stepTokenS found name v).2.1,
        (stepTokenS found name v).2.2) := by
  unfold stepToken stepTokenS
  rw [scanFeatures_merge]
  rcases hscan : scanFeaturesS features name (v.getD 0) v.isSome with _ | ⟨s, e⟩
  · cases found <;> simp [mergeInto_empty]
  · cases e <;> simp

theorem loopGo_merge (n : Nat) (l : List Char) (found : Bool) (c : Config) :
    loopGo n c found l =
      (mergeInto c (loopGoS n found l).1, (loopGoS n found l).2.1,
        (loopGoS n found l).2.2) := by
  induction n generalizing l found c with
  | zero => simp [loopGo, loopGoS, mergeInto_empty]
  | succ n ih =>
    unfold loopGo loopGoS
    cases hget : PropertyParser.Get l with
    | done => simp [mergeInto_empty]
    | err e => simp [mergeInto_empty]
    | tok name v rest =>
      dsimp only
      rw [stepToken_merge]
      rcases hstep : stepTokenS found name v with ⟨s, f1, e1⟩
      cases e1 with
      | none =>
        rcases hrest : loopGoS n f1 rest with ⟨s2, v2, e2⟩
        have := ih rest f1 (mergeInto c s)
        rw [hrest] at this
        simp only [this, hrest, mergeInto_comb]
      | some e =>
        simp

theorem SetFromProperties_merge (c : Config) (str : String) :
    Config.SetFromProperties c str =
      (if (loopGoS (str.data.length + 1) false str.data).2.1 then
        (normalizePost (mergeInto c
          (Summary.comb initS (loopGoS (str.data.length + 1) false str.data).1)),
          true, none)
      else
        (mergeInto c (Summary.comb initS (loopGoS (str.data.length + 1) false str.data).1),
          false, (loopGoS (str.data.length + 1) false str.data).2.2)) := by
  unfold Config.SetFromProperties
  have hinit : ({ c with
      fill_alloc_value := 0xeb, fill_free_value := 0xef,
      front_guard_value := 0xaa, rear_guard_value := 0xbb,
      backtrace_signal := SIGRTMIN + 10,
      free_track_backtrace_num_frames := 16 } : Config) = mergeInto c initS := by
    ext <;> simp [mergeInto, initS, Summary.empty]
  rw [hinit]
  dsimp only
  rw [loopGo_merge]
  dsimp only
  simp only [mergeInto_comb]

theorem and_mask_high (z : Nat) : z &&& (2 ^ 64 - 16) = z / 16 % 2 ^ 60 * 16 := by
  have h1 : (2 : Nat) ^ 64 - 16 = (2 ^ 60 - 1) <<< 4 := by
    rw [Nat.shiftLeft_eq]
    norm_num
  have h2 : z / 16 % 2 ^ 60 * 16 = ((z >>> 4) % 2 ^ 60) <<< 4 := by
    rw [Nat.shiftLeft_eq, Nat.shiftRight_eq_div_pow]
  rw [h1, h2]
  apply Nat.eq_of_testBit_eq
  intro i
  simp only [Nat.testBit_and, Nat.testBit_shiftLeft, Nat.testBit_mod_two_pow,
    Nat.testBit_shiftRight, Nat.testBit_two_pow_sub_one]
  by_cases h4 : 4 ≤ i
  · have hi : 4 + (i - 4) = i := by omega
    simp [h4, hi, Bool.and_comm, Bool.and_left_comm, Bool.and_assoc]
  · simp [h4]

theorem BIONIC_ALIGN16_idem (x : Nat) :
    BIONIC_ALIGN (BIONIC_ALIGN x MINIMUM_ALIGNMENT_BYTES) MINIMUM_ALIGNMENT_BYTES
      = BIONIC_ALIGN x MINIMUM_ALIGNMENT_BYTES := by
  unfold BIONIC_ALIGN MINIMUM_ALIGNMENT_BYTES
  rw [and_mask_high, and_mask_high]
  have h64 : (2 : Nat) ^ 64 = 18446744073709551616 := by norm_num
  have h60 : (2 : Nat) ^ 60 = 1152921504606846976 := by norm_num
  rw [h64, h60]
  omega

theorem normalizePost_opts (c : Config) : (normalizePost c).options = c.options := rfl

theorem normalizePost_fgb (c : Config) :
    (normalizePost c).front_guard_bytes =
      if c.options &&& FRONT_GUARD ≠ 0 then
        BIONIC_ALIGN c.front_guard_bytes MINIMUM_ALIGNMENT_BYTES
      else c.front_guard_bytes := rfl

theorem normalizePost_fof (c : Config) :
    (normalizePost c).fill_on_free_bytes =
      if c.options &&& FILL_ON_FREE ≠ 0 ∧ c.fill_on_free_bytes = 0 then SIZE_MAX
      else c.fill_on_free_bytes := rfl

theorem mergeInto_opts (c : Config) (s : Summary) :
    (mergeInto c s).options = c.options ||| s.mask := rfl

theorem mergeInto_fgb (c : Config) (s : Summary) :
    (mergeInto c s).front_guard_bytes =
      s.front_guard_bytes.getD c.front_guard_bytes := rfl

theorem mergeInto_fof (c : Config) (s : Summary) :
    (mergeInto c s).fill_on_free_bytes =
      s.fill_on_free_bytes.getD c.fill_on_free_bytes := rfl

theorem lor_lor_self (a m : Nat) : (a ||| m) ||| m = a ||| m := by
  rw [Nat.lor_assoc, Nat.or_self]

/-- Re-running the parse's writes over an already-normalized result and
normalizing again reproduces the same configuration: the key step of the
idempotence claim. -/
theorem normalize_merge_idem (c : Config) (s : Summary) :
    normalizePost (mergeInto (normalizePost (mergeInto c s)) s)
      = normalizePost (mergeInto c s) := by
  apply Config.ext
  · -- options
    simp [normalizePost_opts, mergeInto_opts, lor_lor_self]
  · -- front_guard_bytes
    simp only [normalizePost_fgb, normalizePost_opts, mergeInto_opts, mergeInto_fgb,
      lor_lor_self]
    by_cases hA : (c.options ||| s.mask) &&& FRONT_GUARD ≠ 0 <;>
      cases hs : s.front_guard_bytes <;>
        simp [hA, BIONIC_ALIGN16_idem]
  · -- rear_guard_bytes
    simp [normalizePost, mergeInto, getD_getD]
  · -- backtrace_frames
    simp [normalizePost, mergeInto, getD_getD]
  · -- fill_on_alloc_bytes
    simp [normalizePost, mergeInto, getD_getD]
  · -- fill_on_free_bytes
    simp only [normalizePost_fof, normalizePost_opts, mergeInto_opts, mergeInto_fof,
      lor_lor_self]
    have hmax : SIZE_MAX ≠ 0 := by norm_num [SIZE_MAX]
    cases hs : s.fill_on_free_bytes <;>
      simp only [Option.getD_none, Option.getD_some] <;>
        split_ifs <;> simp_all
  · -- expand_alloc_bytes
    simp [normalizePost, mergeInto, getD_getD]
  · -- free_track_allocations
    simp [normalizePost, mergeInto, getD_getD]
  · -- free_track_backtrace_num_frames
    simp [normalizePost, mergeInto, getD_getD]
  · -- fill_alloc_value
    simp [normalizePost, mergeInto, getD_getD]
  · -- fill_free_value
    simp [normalizePost, mergeInto, getD_getD]
  · -- front_guard_value
    simp [normalizePost, mergeInto, getD_getD]
  · -- rear_guard_value
    simp [normalizePost, mergeInto, getD_getD]
  · -- backtrace_signal
    simp [normalizePost, mergeInto, getD_getD]
  · -- backtrace_enabled
    simp [normalizePost, mergeInto, Bool.or_assoc]
  · -- backtrace_enable_on_signal
    simp [normalizePost, mergeInto, Bool.or_assoc]

/-- C8: running `Config::SetFromProperties` a second time on the resulting
configuration object with the identical property string yields a
bit-for-bit identical result (configuration, success flag and reported
error): all configuration writes are absolute assignments or idempotent
bitmask ORs determined by the string alone, the defaults are re-initialized,
and the two normalization passes are idempotent. -/
theorem c8_build_idempotent (c : Config) (s : String) :
    Config.SetFromProperties (Config.SetFromProperties c s).1 s
      = Config.SetFromProperties c s := by
  by_cases hv : (loopGoS (s.data.length + 1) false s.data).2.1 = true
  · simp only [SetFromProperties_merge, hv, if_true]
    simp only [normalize_merge_idem]
  · simp only [SetFromProperties_merge, if_neg hv]
    simp only [mergeInto_self]
